import Mathlib

/-!
Shallow embedding of the pinreq repository (drozdziak1/pinreq).

The embedding covers:
- `src/message.rs`: the `Message` enum and its `FromStr` parser;
- `src/config.rs`: `Config::to_map`, the name -> settings registry builder;
- `src/main.rs`: the channel-name resolution step of `load_config_map`;
- `src/matrix/matrix_channel.rs`: `joined_rooms`, `check_room`, `send_msg`,
  `listen` (the HTTP client value itself is irrelevant to control flow and is
  omitted; each remote HTTP response body is passed in as an explicit argument,
  already parsed exactly as the serde layer would parse it);
- `src/matrix/matrix_stream.rs`: the response-processing closure of
  `MatrixStream::poll` (`syncCycle` below), in state-passing form: the first
  component of the result is the content of the `last_sync` mutex after the
  cycle, the second the value the cycle's future resolves to.

JSON values (`serde_json::Value`) are modelled by the inductive `Json`;
strings are `String` except in `Message.from_str`, where `List Char` makes
the `splitn(2, ' ')` splitting explicit.
-/

namespace Pinreq

/-- Model of `serde_json::Value`. Objects are association lists with unique
keys (serde maps); `Json.get` mirrors `Value::get`, which yields `None` on
non-objects. -/
inductive Json where
  | null
  | bool (b : Bool)
  | num (n : Int)
  | str (s : String)
  | arr (elems : List Json)
  | obj (fields : List (String × Json))

/-- Association-list lookup, first match wins (serde maps hold unique keys). -/
def alookup {α : Type} : List (String × α) → String → Option α
  | [], _ => none
  | (k, v) :: rest, key => if k = key then some v else alookup rest key

/-- `serde_json::Value::get(key)`: `Some` field on objects, `None` otherwise. -/
def Json.get : Json → String → Option Json
  | .obj fields, key => alookup fields key
  | _, _ => none

/-- `Value::as_str`. -/
def Json.asStr : Json → Option String
  | .str s => some s
  | _ => none

/-- `Value::as_array`. -/
def Json.asArr : Json → Option (List Json)
  | .arr elems => some elems
  | _ => none

/-- `Value::as_object`. -/
def Json.asObj : Json → Option (List (String × Json))
  | .obj fields => some fields
  | _ => none

/-- `src/message.rs`: the pinreq `Message` enum (`Pin` = "please pin this for
me", `Confirm` = "I have pinned this"). -/
inductive Message where
  | Pin (resource : String)
  | Confirm (resource : String)
deriving Repr, DecidableEq

/-- Rust `s.splitn(2, ' ')` on a string viewed as a `List Char`: the part
before the first space, and — when a space exists — `some` of everything
after it (otherwise `none`, i.e. the iterator has a single element). -/
def splitn2 : List Char → List Char × Option (List Char)
  | [] => ([], none)
  | c :: rest =>
    if c = ' ' then ([], some rest)
    else
      let p := splitn2 rest
      (c :: p.1, p.2)

/-- `src/message.rs`, `impl FromStr for Message`: split the input at the
first space into a command and its arguments; `pin`/`confirm` build the
corresponding variant carrying the argument string unchanged; anything else
is an error. The input string is modelled as a `List Char`. -/
def Message.from_str (s : List Char) : Except String Message :=
  match splitn2 s with
  | (_, none) => .error "Could not extract command arguments"
  | (cmd, some args) =>
    if cmd = [ 'p', 'i', 'n'] then .ok (.Pin (String.mk args))
    else if cmd = [ 'c', 'o', 'n', 'f', 'i', 'r', 'm'] then .ok (.Confirm (String.mk args))
    else .error "Could not understand command"

example : Message.from_str ("pin something".toList) = .ok (.Pin "something") := rfl
example : Message.from_str ("confirm x y".toList) = .ok (.Confirm "x y") := rfl
example : Message.from_str ("pin".toList) = .error "Could not extract command arguments" := rfl
example : Message.from_str ("pin ".toList) = .ok (.Pin "") := rfl

/-- `src/matrix/matrix_channel.rs`: persisted settings of one Matrix channel. -/
structure MatrixChannelSettings where
  name : String
  homeserver : String
  room_id : String
  access_token : Option String
deriving Repr, DecidableEq

/-- `src/config.rs`: the loaded configuration, a list of Matrix channel
settings. -/
structure Config where
  matrix : List MatrixChannelSettings
deriving Repr, DecidableEq

/-- The error raised by `Config::to_map` (`bail!("Ambiguous channel name {} ...")`),
carrying the offending channel name. -/
inductive ConfigError where
  | ambiguousChannelName (name : String)
deriving Repr, DecidableEq

/-- The loop body of `Config::to_map`: walk the channel list, keeping the
accumulated map (`ret` in the source, modelled as an association list in
insertion order); a channel whose name is already a key aborts with
`ambiguousChannelName`. -/
def toMapGo : List MatrixChannelSettings → List (String × MatrixChannelSettings) →
    Except ConfigError (List (String × MatrixChannelSettings))
  | [], acc => .ok acc
  | ch :: rest, acc =>
    if (acc.map Prod.fst).contains ch.name then
      .error (.ambiguousChannelName ch.name)
    else
      toMapGo rest (acc ++ [(ch.name, ch)])

/-- `src/config.rs`, `Config::to_map`: convert the config to a channel
name -> settings map, verifying global channel name uniqueness. -/
def Config.to_map (cfg : Config) : Except ConfigError (List (String × MatrixChannelSettings)) :=
  toMapGo cfg.matrix []

/-- The error raised by `load_config_map` for a requested channel that is not
in the config map (`format_err!("Channel {} not found", c)`). -/
inductive ResolveError where
  | channelNotFound (name : String)
deriving Repr, DecidableEq

/-- The `collect::<Result<Vec<_>, Error>>()` over requested channel names in
`load_config_map` (`src/main.rs`): each name must be a key of the config map;
the first missing name aborts the whole collection. -/
def collectNames (cfgKeys : List String) : List String → Except ResolveError (List String)
  | [] => .ok []
  | c :: rest =>
    if cfgKeys.contains c then
      match collectNames cfgKeys rest with
      | .ok cs => .ok (c :: cs)
      | .error e => .error e
    else .error (.channelNotFound c)

/-- `src/main.rs`, the channel-name resolution step of `load_config_map`:
with an explicit request (`CHANNEL_IDS` given) every name is checked against
the map; with no explicit request (the `--all` flag) all keys of the map are
selected. -/
def resolveNames (requested : Option (List String))
    (cfgMap : List (String × MatrixChannelSettings)) : Except ResolveError (List String) :=
  match requested with
  | some chans => collectNames (cfgMap.map Prod.fst) chans
  | none => .ok (cfgMap.map Prod.fst)

/-- `src/matrix/error.rs`: the `MatrixError` enum. -/
inductive MatrixError where
  | NotAuthenticated
  | ResponseNotUnderstood (msg : String)
  | RoomNotJoined (room : String)
deriving Repr, DecidableEq

/-- `failure::Error` as it appears in the matrix channel code: either a
wrapped `MatrixError` or a plain formatted message (`bail!`/`format_err!`). -/
inductive PinreqError where
  | matrixErr (e : MatrixError)
  | other (msg : String)
deriving Repr, DecidableEq

/-- `src/matrix/matrix_channel.rs`, `MatrixChannel::joined_rooms`: requires an
access token (`NotAuthenticated` otherwise), then reads the `joined_rooms` key
of the response (parsed as a map from strings to sets of room ids, the set
modelled as a list). -/
def MatrixChannel.joined_rooms (ch : MatrixChannelSettings)
    (resp : List (String × List String)) : Except PinreqError (List String) :=
  match ch.access_token with
  | none => .error (.matrixErr .NotAuthenticated)
  | some _ =>
    match alookup resp "joined_rooms" with
    | some rooms => .ok rooms
    | none => .error (.matrixErr (.ResponseNotUnderstood "No joined_rooms in response object"))

/-- `src/matrix/matrix_channel.rs`, `MatrixChannel::check_room`: verify that
the channel's room id is among the account's joined rooms; fails with
`RoomNotJoined` otherwise. -/
def MatrixChannel.check_room (ch : MatrixChannelSettings)
    (resp : List (String × List String)) : Except PinreqError Unit :=
  match MatrixChannel.joined_rooms ch resp with
  | .error e => .error e
  | .ok rooms =>
    if rooms.contains ch.room_id then .ok ()
    else .error (.matrixErr (.RoomNotJoined ch.room_id))

/-- `src/matrix/matrix_channel.rs`, `MatrixChannel::send_msg`: first
`check_room`, then the access token is read again, then a message event is
POSTed to the room and the response must carry a string `event_id`. The
`Bool` component records whether the POST request was issued at all. -/
def MatrixChannel.send_msg (ch : MatrixChannelSettings)
    (joinedResp : List (String × List String)) (sendResp : Json) :
    Bool × Except PinreqError Unit :=
  match MatrixChannel.check_room ch joinedResp with
  | .error e => (false, .error e)
  | .ok _ =>
    match ch.access_token with
    | none => (false, .error (.matrixErr .NotAuthenticated))
    | some _ =>
      match sendResp.get "event_id" with
      | some (.str _) => (true, .ok ())
      | some _ => (true, .error (.other "event_id is not a String!"))
      | none => (true, .error (.other "Could not get event_id from response"))

/-- `src/matrix/matrix_channel.rs`: the stream value constructed by
`MatrixChannel::listen` — settings snapshot plus the sync cursor (`since`,
`None` = first sync; the `last_sync` mutex of `src/matrix/matrix_stream.rs`)
and the buffered message queue (the HTTP client clone is omitted). -/
structure MatrixStream where
  homeserver : String
  room_id : String
  access_token : String
  since : Option String
  messages : List Message
deriving Repr, DecidableEq

/-- `src/matrix/matrix_channel.rs`, `MatrixChannel::listen`: requires an
access token (`NotAuthenticated` otherwise) and builds a fresh `MatrixStream`
from the channel settings, with `since: None` and an empty message queue.
The channel itself is taken by shared reference (`&self`) and not mutated. -/
def MatrixChannel.listen (ch : MatrixChannelSettings) : Except PinreqError MatrixStream :=
  match ch.access_token with
  | none => .error (.matrixErr .NotAuthenticated)
  | some token =>
    .ok { homeserver := ch.homeserver, room_id := ch.room_id, access_token := token,
          since := none, messages := [] }

/-- `src/matrix/matrix_stream.rs`, the per-event closure inside
`MatrixStream::poll`: read `content` (must be an object), read its `msgtype`
(must be a string); for `m.text` read the string `body` and decode it as a
`Message`; any other msgtype is `bail!("Got unknown message type {}")`. The
body decoder (`serde_json::from_slice::<Message>` in the source) is passed in
as `decode`; each claim treats only its success or failure per event. -/
def parseEvent (decode : String → Except String Message) (e : Json) : Except String Message :=
  match e.get "content" with
  | none => .error "Could not get event contents"
  | some content =>
    match content.asObj with
    | none => .error "Could not view content as object"
    | some contentObj =>
      match alookup contentObj "msgtype" with
      | none => .error "Could not check msgtype"
      | some mtVal =>
        match mtVal.asStr with
        | none => .error "Could not view msgtype as string"
        | some mt =>
          if mt = "m.text" then
            match alookup contentObj "body" with
            | none => .error "Could not get message body"
            | some bodyVal =>
              match bodyVal.asStr with
              | none => .error "Could not view body as string"
              | some body => decode body
          else .error ("Got unknown message type " ++ mt)

/-- `events.iter().map(|e| ...).collect::<Result<Vec<Message>, Error>>()` in
`MatrixStream::poll`: decode every event of the timeline in order; the first
event that fails aborts the whole collection with that event's error. -/
def collectMessages (decode : String → Except String Message) :
    List Json → Except String (List Message)
  | [] => .ok []
  | e :: rest =>
    match parseEvent decode e with
    | .error err => .error err
    | .ok msg =>
      match collectMessages decode rest with
      | .ok msgs => .ok (msg :: msgs)
      | .error err => .error err

/-- `src/matrix/matrix_stream.rs`, the response-processing closure of
`MatrixStream::poll`, in state-passing form over the `last_sync` mutex:
given the cursor before the cycle and the parsed sync response, the result is
(content of `last_sync` after the cycle, value resolved by the cycle).
Missing `rooms`/`join`/room-id substructure is an early successful return with
an empty batch (`Ok(Some(Vec::new()))`), leaving the cursor untouched; every
`?`/`bail!` failure leaves the cursor untouched; only the final success path
writes the response's `next_batch` into the cursor and yields the decoded
batch. -/
def syncCycle (room_id : String) (decode : String → Except String Message)
    (last_sync : Option String) (parsed : Json) :
    Option String × Except String (List Message) :=
  match parsed.get "rooms" with
  | none => (last_sync, .ok [])
  | some rooms =>
    match rooms.get "join" with
    | none => (last_sync, .ok [])
    | some join =>
      match join.get room_id with
      | none => (last_sync, .ok [])
      | some joinRoom =>
        match joinRoom.get "timeline" with
        | none => (last_sync, .error (room_id ++ ": Could not find timeline"))
        | some timeline =>
          match timeline.get "events" with
          | none => (last_sync, .error "Could not reach events")
          | some eventsVal =>
            match eventsVal.asArr with
            | none => (last_sync, .error "Could not view events as array")
            | some events =>
              match collectMessages decode events with
              | .error err => (last_sync, .error err)
              | .ok msgs =>
                match parsed.get "next_batch" with
                | none => (last_sync, .error "Could not reach next-batch")
                | some nbVal =>
                  match nbVal.asStr with
                  | none => (last_sync, .error "Could not view next_batch as string")
                  | some nb => (some nb, .ok msgs)

/-- The condition of the three early empty-batch returns of
`MatrixStream::poll`: the `rooms` key, the `join` key under it, or the entry
for the target room id is absent from the parsed response. -/
def roomAbsent (parsed : Json) (room_id : String) : Prop :=
  parsed.get "rooms" = none ∨
  (∃ rooms, parsed.get "rooms" = some rooms ∧ rooms.get "join" = none) ∨
  (∃ rooms join, parsed.get "rooms" = some rooms ∧ rooms.get "join" = some join ∧
    join.get room_id = none)

/-- A concrete body decoder for witnesses and counterexamples: the repository's
own `Message` parser from `src/message.rs`. -/
def decodeRef (s : String) : Except String Message :=
  Message.from_str s.toList

/-! ### Lemmas about `splitn2` -/

theorem splitn2_append (cmd args : List Char) (h : ' ' ∉ cmd) :
    splitn2 (cmd ++ ' ' :: args) = (cmd, some args) := by
  induction cmd with
  | nil => simp [splitn2]
  | cons c cs ih =>
    have hc : ¬ (c = ' ') := by
      intro e
      exact h (e ▸ List.mem_cons_self c cs)
    have hcs : ' ' ∉ cs := fun m => h (List.mem_cons_of_mem _ m)
    simp [splitn2, hc, ih hcs]

theorem splitn2_some (s : List Char) : ∀ cmd args : List Char,
    splitn2 s = (cmd, some args) → ' ' ∉ cmd ∧ s = cmd ++ ' ' :: args := by
  induction s with
  | nil =>
    intro cmd args h
    simp [splitn2] at h
  | cons c rest ih =>
    intro cmd args h
    by_cases hc : c = ' '
    · subst hc
      simp [splitn2] at h
      obtain ⟨rfl, rfl⟩ := h
      simp
    · simp [splitn2, hc] at h
      obtain ⟨rfl, h2⟩ := h
      have hr : splitn2 rest = ((splitn2 rest).1, some args) := by
        rw [← h2]
      obtain ⟨ihn, ihe⟩ := ih (splitn2 rest).1 args hr
      refine ⟨?_, ?_⟩
      · intro hmem
        rcases List.mem_cons.mp hmem with h1 | h1
        · exact hc h1.symm
        · exact ihn h1
      · rw [List.cons_append, ← ihe]

/-- C8 (amended): decoding a command string into a `Message` succeeds exactly
when the string is the command `pin` or `confirm` followed by a space and an
arbitrary — possibly empty — argument; the argument (resource id) is taken
over unchanged and opaquely, with no validation (not even non-emptiness), and
any other command name is a decode failure. -/
theorem from_str_ok_characterization (s : List Char) (m : Message) :
    Message.from_str s = .ok m ↔
      (∃ arg, s = 'p' :: 'i' :: 'n' :: ' ' :: arg ∧ m = .Pin (String.mk arg)) ∨
      (∃ arg, s = 'c' :: 'o' :: 'n' :: 'f' :: 'i' :: 'r' :: 'm' :: ' ' :: arg ∧
        m = .Confirm (String.mk arg)) := by
  constructor
  · intro h
    rcases hs : splitn2 s with ⟨cmd, argsOpt⟩
    rcases argsOpt with _ | args
    · rw [Message.from_str, hs] at h
      cases h
    · obtain ⟨-, hse⟩ := splitn2_some s cmd args hs
      simp only [Message.from_str, hs] at h
      by_cases hpin : cmd = [ 'p', 'i', 'n']
      · rw [if_pos hpin] at h
        left
        refine ⟨args, ?_, ?_⟩
        · rw [hse, hpin]
          rfl
        · cases h
          rfl
      · rw [if_neg hpin] at h
        by_cases hcon : cmd = [ 'c', 'o', 'n', 'f', 'i', 'r', 'm']
        · rw [if_pos hcon] at h
          right
          refine ⟨args, ?_, ?_⟩
          · rw [hse, hcon]
            rfl
          · cases h
            rfl
        · rw [if_neg hcon] at h
          cases h
  · intro h
    rcases h with ⟨arg, rfl, rfl⟩ | ⟨arg, rfl, rfl⟩
    · have hsp : splitn2 ('p' :: 'i' :: 'n' :: ' ' :: arg) = ([ 'p', 'i', 'n'], some arg) :=
        splitn2_append [ 'p', 'i', 'n'] arg (by decide)
      rw [Message.from_str, hsp]
      rfl
    · have hsp : splitn2 ('c' :: 'o' :: 'n' :: 'f' :: 'i' :: 'r' :: 'm' :: ' ' :: arg)
          = ([ 'c', 'o', 'n', 'f', 'i', 'r', 'm'], some arg) :=
        splitn2_append [ 'c', 'o', 'n', 'f', 'i', 'r', 'm'] arg (by decide)
      rw [Message.from_str, hsp]
      rfl

/-- C8 counterexample: the claim requires the argument to be non-empty, but
`Message::from_str` accepts `"pin "` — the command followed by a space and an
empty argument — and returns `Pin("")`. -/
theorem from_str_empty_arg_accepted :
    Message.from_str [ 'p', 'i', 'n', ' '] = .ok (.Pin "") := rfl

/-- C8 witness: the amended characterization instantiated at `"pin x"`. -/
theorem from_str_ok_characterization_witness :
    Message.from_str [ 'p', 'i', 'n', ' ', 'x'] = .ok (.Pin "x") :=
  (from_str_ok_characterization [ 'p', 'i', 'n', ' ', 'x'] (.Pin "x")).mpr
    (Or.inl ⟨[ 'x'], rfl, rfl⟩)

/-! ### Lemmas about `toMapGo` and `collectNames` -/

theorem mem_iff_contains (l : List String) (a : String) : l.contains a = true ↔ a ∈ l :=
  List.elem_iff

theorem toMapGo_ok_of_nodup (l : List MatrixChannelSettings) :
    ∀ acc : List (String × MatrixChannelSettings),
    (acc.map Prod.fst ++ l.map (fun c => c.name)).Nodup →
    ∃ m, toMapGo l acc = .ok m := by
  induction l with
  | nil => exact fun acc _ => ⟨acc, rfl⟩
  | cons ch rest ih =>
    intro acc h
    have hnotin : ch.name ∉ acc.map Prod.fst := by
      intro hmem
      rcases List.nodup_append.mp h with ⟨-, -, hdis⟩
      exact hdis hmem (by simp)
    have hcont : (acc.map Prod.fst).contains ch.name = false := by
      rcases hb : (acc.map Prod.fst).contains ch.name with _ | _
      · rfl
      · exact absurd ((mem_iff_contains _ _).mp hb) hnotin
    rw [toMapGo, hcont]
    simp only [Bool.false_eq_true, if_false]
    apply ih
    have hre : (acc ++ [(ch.name, ch)]).map Prod.fst ++ rest.map (fun c => c.name)
        = acc.map Prod.fst ++ (ch :: rest).map (fun c => c.name) := by
      simp
    rw [hre]
    exact h

theorem toMapGo_error_of_dup (l : List MatrixChannelSettings) :
    ∀ acc : List (String × MatrixChannelSettings),
    (acc.map Prod.fst).Nodup →
    ¬ (acc.map Prod.fst ++ l.map (fun c => c.name)).Nodup →
    ∃ n, toMapGo l acc = .error (.ambiguousChannelName n) ∧
      2 ≤ (acc.map Prod.fst ++ l.map (fun c => c.name)).count n := by
  induction l with
  | nil =>
    intro acc hacc h
    simp only [List.map_nil, List.append_nil] at h
    exact absurd hacc h
  | cons ch rest ih =>
    intro acc hacc h
    by_cases hmem : ch.name ∈ acc.map Prod.fst
    · refine ⟨ch.name, ?_, ?_⟩
      · rw [toMapGo, (mem_iff_contains _ _).mpr hmem]
        simp
      · rw [List.count_append]
        have h1 : 1 ≤ (acc.map Prod.fst).count ch.name := List.count_pos_iff.mpr hmem
        have h2 : 1 ≤ ((ch :: rest).map (fun c => c.name)).count ch.name := by
          simp [List.count_cons]
        omega
    · have hcont : (acc.map Prod.fst).contains ch.name = false := by
        rcases hb : (acc.map Prod.fst).contains ch.name with _ | _
        · rfl
        · exact absurd ((mem_iff_contains _ _).mp hb) hmem
      have hre : (acc ++ [(ch.name, ch)]).map Prod.fst ++ rest.map (fun c => c.name)
          = acc.map Prod.fst ++ (ch :: rest).map (fun c => c.name) := by
        simp
      have hacc2 : ((acc ++ [(ch.name, ch)]).map Prod.fst).Nodup := by
        simp only [List.map_append]
        rw [List.nodup_append]
        exact ⟨hacc, List.nodup_singleton _, by simpa using hmem⟩
      have hdup2 : ¬ ((acc ++ [(ch.name, ch)]).map Prod.fst
          ++ rest.map (fun c => c.name)).Nodup := by
        rw [hre]
        exact h
      obtain ⟨n, herr, hcount⟩ := ih (acc ++ [(ch.name, ch)]) hacc2 hdup2
      refine ⟨n, ?_, ?_⟩
      · rw [toMapGo, hcont]
        simpa using herr
      · rw [hre] at hcount
        exact hcount

/-- C5: building the name -> settings registry from a configuration fails
with an error naming an offending (duplicated) channel whenever two entries
share a name — and then no registry value of any kind is returned — while a
configuration with pairwise-distinct names succeeds. -/
theorem to_map_uniqueness (cfg : Config) :
    ((cfg.matrix.map (fun c => c.name)).Nodup → ∃ m, Config.to_map cfg = .ok m) ∧
    (¬ (cfg.matrix.map (fun c => c.name)).Nodup →
      ∃ n, Config.to_map cfg = .error (.ambiguousChannelName n) ∧
        2 ≤ (cfg.matrix.map (fun c => c.name)).count n) := by
  constructor
  · intro h
    exact toMapGo_ok_of_nodup cfg.matrix [] (by simpa using h)
  · intro h
    obtain ⟨n, herr, hcount⟩ :=
      toMapGo_error_of_dup cfg.matrix [] (by simp) (by simpa using h)
    exact ⟨n, herr, by simpa using hcount⟩

/-- C5 witness: a configuration with two channels both named `dup` fails with
`ambiguousChannelName "dup"`-style error carrying a name duplicated twice,
while the singleton configuration succeeds. -/
theorem to_map_uniqueness_witness :
    (∃ m, Config.to_map ⟨[⟨"solo", "hs", "!r:hs", none⟩]⟩ = .ok m) ∧
    ∃ n, Config.to_map ⟨[⟨"dup", "hs", "!r:hs", none⟩, ⟨"dup", "hs2", "!r2:hs", none⟩]⟩
        = .error (.ambiguousChannelName n) ∧
      2 ≤ (([⟨"dup", "hs", "!r:hs", none⟩,
            (⟨"dup", "hs2", "!r2:hs", none⟩ : MatrixChannelSettings)] : List MatrixChannelSettings).map
              (fun c => c.name)).count n :=
  ⟨(to_map_uniqueness ⟨[⟨"solo", "hs", "!r:hs", none⟩]⟩).1 (by simp),
   (to_map_uniqueness ⟨[⟨"dup", "hs", "!r:hs", none⟩, ⟨"dup", "hs2", "!r2:hs", none⟩]⟩).2
     (by simp)⟩

theorem collectNames_ok_of_all (keys : List String) : ∀ req : List String,
    (∀ c ∈ req, c ∈ keys) → collectNames keys req = .ok req := by
  intro req
  induction req with
  | nil => intro _; rfl
  | cons c rest ih =>
    intro h
    have hc : keys.contains c = true :=
      (mem_iff_contains _ _).mpr (h c (by simp))
    rw [collectNames, hc]
    simp only [if_true]
    rw [ih (fun d hd => h d (by simp [hd]))]

theorem collectNames_ok_mem (keys : List String) : ∀ req l : List String,
    collectNames keys req = .ok l → l = req ∧ ∀ c ∈ req, c ∈ keys := by
  intro req
  induction req with
  | nil =>
    intro l h
    rw [collectNames] at h
    cases h
    simp
  | cons c rest ih =>
    intro l h
    rw [collectNames] at h
    rcases hc : keys.contains c with _ | _
    · rw [hc] at h
      simp at h
    · rw [hc] at h
      simp only [if_true] at h
      rcases hr : collectNames keys rest with e | cs
      · rw [hr] at h
        cases h
      · rw [hr] at h
        cases h
        obtain ⟨rfl, hall⟩ := ih cs hr
        refine ⟨rfl, ?_⟩
        intro d hd
        rcases List.mem_cons.mp hd with rfl | hd2
        · exact (mem_iff_contains _ _).mp hc
        · exact hall d hd2

theorem collectNames_error_of_missing (keys : List String) : ∀ req : List String,
    (∃ c ∈ req, c ∉ keys) →
    ∃ c, collectNames keys req = .error (.channelNotFound c) ∧ c ∈ req ∧ c ∉ keys := by
  intro req
  induction req with
  | nil =>
    rintro ⟨c, hc, -⟩
    cases hc
  | cons d rest ih =>
    rintro ⟨c, hc, hnot⟩
    by_cases hd : d ∈ keys
    · have hcont : keys.contains d = true := (mem_iff_contains _ _).mpr hd
      have hcrest : c ∈ rest := by
        rcases List.mem_cons.mp hc with rfl | h2
        · exact absurd hd hnot
        · exact h2
      obtain ⟨n, herr, hn1, hn2⟩ := ih ⟨c, hcrest, hnot⟩
      refine ⟨n, ?_, List.mem_cons_of_mem _ hn1, hn2⟩
      rw [collectNames, hcont]
      simp only [if_true]
      rw [herr]
    · have hcont : keys.contains d = false := by
        rcases hb : keys.contains d with _ | _
        · rfl
        · exact absurd ((mem_iff_contains _ _).mp hb) hd
      refine ⟨d, ?_, by simp, hd⟩
      rw [collectNames, hcont]
      simp

/-- C6: with an explicit list of requested channel names, resolution succeeds
and returns exactly those names if and only if every requested name is a key
of the registry; if any name is missing, resolution fails naming an unknown
requested channel (no partial result is returned); with no explicit list, it
returns every registered name. -/
theorem resolveNames_spec (req : List String)
    (cfgMap : List (String × MatrixChannelSettings)) :
    (resolveNames (some req) cfgMap = .ok req ↔ ∀ c ∈ req, c ∈ cfgMap.map Prod.fst) ∧
    ((∃ c ∈ req, c ∉ cfgMap.map Prod.fst) →
      ∃ c, resolveNames (some req) cfgMap = .error (.channelNotFound c) ∧
        c ∈ req ∧ c ∉ cfgMap.map Prod.fst) ∧
    resolveNames none cfgMap = .ok (cfgMap.map Prod.fst) := by
  refine ⟨⟨?_, ?_⟩, ?_, rfl⟩
  · intro h
    exact (collectNames_ok_mem (cfgMap.map Prod.fst) req req h).2
  · intro h
    exact collectNames_ok_of_all (cfgMap.map Prod.fst) req h
  · intro h
    exact collectNames_error_of_missing (cfgMap.map Prod.fst) req h

/-- C6 witness: with only `roomA` registered, resolving
`["roomA", "roomZ"]` fails naming unknown channel `roomZ`, resolving
`["roomA"]` returns exactly `["roomA"]`, and resolving with no explicit list
returns every registered name. -/
theorem resolveNames_spec_witness :
    (∃ c, resolveNames (some ["roomA", "roomZ"]) [("roomA", ⟨"roomA", "hs", "!a:hs", none⟩)]
        = .error (.channelNotFound c) ∧ c ∈ ["roomA", "roomZ"] ∧
        c ∉ ([("roomA", (⟨"roomA", "hs", "!a:hs", none⟩ : MatrixChannelSettings))].map Prod.fst)) ∧
    resolveNames (some ["roomA"]) [("roomA", ⟨"roomA", "hs", "!a:hs", none⟩)] = .ok ["roomA"] :=
  ⟨(resolveNames_spec ["roomA", "roomZ"] [("roomA", ⟨"roomA", "hs", "!a:hs", none⟩)]).2.1
     ⟨"roomZ", by simp, by simp⟩,
   (resolveNames_spec ["roomA"] [("roomA", ⟨"roomA", "hs", "!a:hs", none⟩)]).1.mpr
     (by simp)⟩

/-! ### Channel-state claims -/

/-- C7: on a `MatrixChannel` whose settings carry no access token, both
`send_msg` and `listen` fail with `NotAuthenticated` and have no other
effect: `send_msg` never issues its POST request (first component `false`)
and `listen` produces no stream. -/
theorem not_authenticated_no_effect (ch : MatrixChannelSettings)
    (h : ch.access_token = none)
    (joinedResp : List (String × List String)) (sendResp : Json) :
    MatrixChannel.listen ch = .error (.matrixErr .NotAuthenticated) ∧
    MatrixChannel.send_msg ch joinedResp sendResp
      = (false, .error (.matrixErr .NotAuthenticated)) := by
  constructor
  · rw [MatrixChannel.listen, h]
  · rw [MatrixChannel.send_msg, MatrixChannel.check_room, MatrixChannel.joined_rooms, h]

/-- C7 witness: a concrete never-logged-in channel. -/
theorem not_authenticated_no_effect_witness :
    MatrixChannel.listen ⟨"ch", "matrix.org", "!r:matrix.org", none⟩
      = .error (.matrixErr .NotAuthenticated) ∧
    MatrixChannel.send_msg ⟨"ch", "matrix.org", "!r:matrix.org", none⟩ [] (Json.obj [])
      = (false, .error (.matrixErr .NotAuthenticated)) :=
  not_authenticated_no_effect ⟨"ch", "matrix.org", "!r:matrix.org", none⟩ rfl [] (Json.obj [])

/-- C9 (implicit): on an authenticated channel whose configured room id is not
among the account's joined rooms, `send_msg` fails with `RoomNotJoined`
carrying the room id, without ever issuing the message POST request (first
component `false`). -/
theorem send_msg_room_not_joined (ch : MatrixChannelSettings) (token : String)
    (h : ch.access_token = some token)
    (rooms : List String) (joinedResp : List (String × List String))
    (hresp : alookup joinedResp "joined_rooms" = some rooms)
    (hnot : ch.room_id ∉ rooms) (sendResp : Json) :
    MatrixChannel.send_msg ch joinedResp sendResp
      = (false, .error (.matrixErr (.RoomNotJoined ch.room_id))) := by
  have hcont : rooms.contains ch.room_id = false := by
    rcases hb : rooms.contains ch.room_id with _ | _
    · rfl
    · exact absurd ((mem_iff_contains _ _).mp hb) hnot
  rw [MatrixChannel.send_msg, MatrixChannel.check_room, MatrixChannel.joined_rooms, h, hresp]
  simp [hcont, hnot]

/-- C9 witness: an authenticated channel for room `!r:hs` with only `!other:hs`
joined. -/
theorem send_msg_room_not_joined_witness :
    MatrixChannel.send_msg ⟨"ch", "hs", "!r:hs", some "tok"⟩
        [("joined_rooms", ["!other:hs"])] (Json.obj [])
      = (false, .error (.matrixErr (.RoomNotJoined "!r:hs"))) :=
  send_msg_room_not_joined ⟨"ch", "hs", "!r:hs", some "tok"⟩ "tok" rfl
    ["!other:hs"] [("joined_rooms", ["!other:hs"])] rfl (by decide) (Json.obj [])

/-- C10 (implicit): every `listen` call on an authenticated channel builds a
fresh stream whose sync cursor (`since`) is `None` and whose buffered message
queue is empty, purely from the channel's settings (the channel, taken by
shared reference in the source, is not mutated); hence every `listen` call
starts from the beginning of history regardless of any earlier stream's
pagination progress. -/
theorem listen_fresh_stream (ch : MatrixChannelSettings) (token : String)
    (h : ch.access_token = some token) :
    MatrixChannel.listen ch = .ok ⟨ch.homeserver, ch.room_id, token, none, []⟩ := by
  rw [MatrixChannel.listen, h]

/-- C10 witness: a concrete authenticated channel. -/
theorem listen_fresh_stream_witness :
    MatrixChannel.listen ⟨"ch", "hs", "!r:hs", some "tok"⟩
      = .ok ⟨"hs", "!r:hs", "tok", none, []⟩ :=
  listen_fresh_stream ⟨"ch", "hs", "!r:hs", some "tok"⟩ "tok" rfl

/-! ### Sync engine claims -/

theorem syncCycle_cases (room_id : String) (decode : String → Except String Message)
    (last_sync : Option String) (parsed : Json) :
    (roomAbsent parsed room_id ∧
      syncCycle room_id decode last_sync parsed = (last_sync, .ok [])) ∨
    (∃ e, syncCycle room_id decode last_sync parsed = (last_sync, .error e)) ∨
    (∃ nbVal nb msgs, parsed.get "next_batch" = some nbVal ∧ nbVal.asStr = some nb ∧
      syncCycle room_id decode last_sync parsed = (some nb, .ok msgs)) := by
  rcases h1 : parsed.get "rooms" with _ | rooms
  · exact Or.inl ⟨Or.inl h1, by simp only [syncCycle, h1]⟩
  rcases h2 : rooms.get "join" with _ | joinv
  · exact Or.inl ⟨Or.inr (Or.inl ⟨rooms, h1, h2⟩), by simp only [syncCycle, h1, h2]⟩
  rcases h3 : joinv.get room_id with _ | jr
  · exact Or.inl ⟨Or.inr (Or.inr ⟨rooms, joinv, h1, h2, h3⟩), by
      simp only [syncCycle, h1, h2, h3]⟩
  rcases h4 : jr.get "timeline" with _ | timeline
  · refine Or.inr (Or.inl ⟨room_id ++ ": Could not find timeline", ?_⟩)
    simp only [syncCycle, h1, h2, h3, h4]
  rcases h5 : timeline.get "events" with _ | eventsVal
  · refine Or.inr (Or.inl ⟨"Could not reach events", ?_⟩)
    simp only [syncCycle, h1, h2, h3, h4, h5]
  rcases h6 : eventsVal.asArr with _ | events
  · refine Or.inr (Or.inl ⟨"Could not view events as array", ?_⟩)
    simp only [syncCycle, h1, h2, h3, h4, h5, h6]
  rcases h7 : collectMessages decode events with err | msgs
  · refine Or.inr (Or.inl ⟨err, ?_⟩)
    simp only [syncCycle, h1, h2, h3, h4, h5, h6, h7]
  rcases h8 : parsed.get "next_batch" with _ | nbVal
  · refine Or.inr (Or.inl ⟨"Could not reach next-batch", ?_⟩)
    simp only [syncCycle, h1, h2, h3, h4, h5, h6, h7, h8]
  rcases h9 : nbVal.asStr with _ | nb
  · refine Or.inr (Or.inl ⟨"Could not view next_batch as string", ?_⟩)
    simp only [syncCycle, h1, h2, h3, h4, h5, h6, h7, h8, h9]
  · refine Or.inr (Or.inr ⟨nbVal, nb, msgs, rfl, h9, ?_⟩)
    simp only [syncCycle, h1, h2, h3, h4, h5, h6, h7, h8, h9]

theorem collectMessages_ok_of_forall (decode : String → Except String Message)
    (events : List Json) (msgs : List Message)
    (h : List.Forall₂ (fun e msg => parseEvent decode e = .ok msg) events msgs) :
    collectMessages decode events = .ok msgs := by
  induction h with
  | nil => rfl
  | cons h1 h2 ih => simp only [collectMessages, h1, ih]

theorem collectMessages_error_of_mem (decode : String → Except String Message) :
    ∀ (events : List Json) (e : Json) (err : String), e ∈ events →
    parseEvent decode e = .error err →
    ∃ err2, collectMessages decode events = .error err2 := by
  intro events
  induction events with
  | nil =>
    intro e err he _
    cases he
  | cons a rest ih =>
    intro e err he herr
    rcases hpa : parseEvent decode a with ea | ma
    · exact ⟨ea, by simp only [collectMessages, hpa]⟩
    · rcases List.mem_cons.mp he with rfl | hrest
      · rw [hpa] at herr
        cases herr
      · obtain ⟨err2, hr⟩ := ih e err hrest herr
        exact ⟨err2, by simp only [collectMessages, hpa, hr]⟩

/-- C1 (amended): on a page whose target-room timeline is present with event
list `events`, the poll cycle yields the batch of decoded messages (in server
order, cursor advanced to `next_batch`) only when every event decodes; if any
event is malformed — non-text msgtype, missing or non-string body, or a body
the decoder rejects — the whole cycle fails with a stream error and the cursor
is left unchanged, instead of skipping the malformed event. -/
theorem sync_malformed_event_policy (room_id : String)
    (decode : String → Except String Message) (last_sync : Option String)
    (parsed rooms joinv jr timeline eventsVal : Json)
    (events : List Json) (nb : String)
    (h1 : parsed.get "rooms" = some rooms) (h2 : rooms.get "join" = some joinv)
    (h3 : joinv.get room_id = some jr) (h4 : jr.get "timeline" = some timeline)
    (h5 : timeline.get "events" = some eventsVal) (h6 : eventsVal.asArr = some events)
    (h7 : parsed.get "next_batch" = some (.str nb)) :
    (∀ msgs, List.Forall₂ (fun e msg => parseEvent decode e = .ok msg) events msgs →
      syncCycle room_id decode last_sync parsed = (some nb, .ok msgs)) ∧
    (∀ e ∈ events, ∀ err, parseEvent decode e = .error err →
      ∃ err2, syncCycle room_id decode last_sync parsed = (last_sync, .error err2)) := by
  constructor
  · intro msgs hall
    have hc := collectMessages_ok_of_forall decode events msgs hall
    simp only [syncCycle, h1, h2, h3, h4, h5, h6, hc, h7, Json.asStr]
  · intro e he err herr
    obtain ⟨err2, hc⟩ := collectMessages_error_of_mem decode events e err he herr
    exact ⟨err2, by simp only [syncCycle, h1, h2, h3, h4, h5, h6, hc]⟩

/-- A well-formed text event carrying the message `pin bafydead`. -/
def cexGoodEvent : Json :=
  .obj [("content", .obj [("msgtype", .str "m.text"), ("body", .str "pin bafydead")])]

/-- A malformed (non-text) event: msgtype `m.image`. -/
def cexBadEvent : Json :=
  .obj [("content", .obj [("msgtype", .str "m.image")])]

/-- The timeline, room, join and rooms nodes of the mixed counterexample page. -/
def cexTimeline : Json := .obj [("events", .arr [cexGoodEvent, cexBadEvent])]

def cexRoom : Json := .obj [("timeline", cexTimeline)]

def cexJoin : Json := .obj [("!pinreq:hs", cexRoom)]

def cexRooms : Json := .obj [("join", cexJoin)]

/-- A sync page for room `!pinreq:hs` whose timeline holds one well-formed and
one malformed event, with a continuation token present. -/
def cexPage : Json := .obj [("rooms", cexRooms), ("next_batch", .str "s_1234")]

/-- The same page with only the well-formed event. -/
def goodTimeline : Json := .obj [("events", .arr [cexGoodEvent])]

def goodRoom : Json := .obj [("timeline", goodTimeline)]

def goodJoin : Json := .obj [("!pinreq:hs", goodRoom)]

def goodRooms : Json := .obj [("join", goodJoin)]

def goodPage : Json := .obj [("rooms", goodRooms), ("next_batch", .str "s_1234")]

/-- C1 counterexample: on a page with N = 1 well-formed and M = 1 malformed
event, the poll cycle does not yield the batch of the decoded message — it
fails with the malformed event's error as a stream error (and the cursor stays
put), because the event collection short-circuits on the first failure. -/
theorem sync_malformed_event_not_skipped :
    syncCycle "!pinreq:hs" decodeRef none cexPage
      = (none, .error "Got unknown message type m.image") := rfl

/-- C1 witness: the amended claim instantiated on the same page shape: the
all-well-formed variant yields the decoded batch with the cursor advanced, and
on `cexPage` the malformed member event makes the cycle fail. -/
theorem sync_malformed_event_policy_witness :
    syncCycle "!pinreq:hs" decodeRef none goodPage
      = (some "s_1234", .ok [.Pin "bafydead"]) ∧
    ∃ err2, syncCycle "!pinreq:hs" decodeRef (some "prev") cexPage
      = (some "prev", .error err2) :=
  ⟨(sync_malformed_event_policy "!pinreq:hs" decodeRef none goodPage goodRooms goodJoin
      goodRoom goodTimeline (.arr [cexGoodEvent]) [cexGoodEvent] "s_1234"
      rfl rfl rfl rfl rfl rfl rfl).1 [.Pin "bafydead"]
      (List.Forall₂.cons rfl List.Forall₂.nil),
   (sync_malformed_event_policy "!pinreq:hs" decodeRef (some "prev") cexPage cexRooms cexJoin
      cexRoom cexTimeline (.arr [cexGoodEvent, cexBadEvent]) [cexGoodEvent, cexBadEvent]
      "s_1234" rfl rfl rfl rfl rfl rfl rfl).2 cexBadEvent
      (List.mem_cons_of_mem _ (List.mem_cons_self _ _))
      "Got unknown message type m.image" rfl⟩

/-- C2: the stored cursor is written only on the full-parse success path —
whenever the cycle resolves to an error, the cursor after the cycle is exactly
the cursor before it; and whenever the cursor after the cycle differs from the
cursor before, the response parsed fully, the new cursor is the response's
`next_batch` string, and the cycle yields a (possibly empty) batch. -/
theorem sync_cursor_advance (room_id : String) (decode : String → Except String Message)
    (last_sync : Option String) (parsed : Json) :
    (∀ e, (syncCycle room_id decode last_sync parsed).2 = .error e →
      (syncCycle room_id decode last_sync parsed).1 = last_sync) ∧
    ((syncCycle room_id decode last_sync parsed).1 ≠ last_sync →
      ∃ nbVal nb msgs, parsed.get "next_batch" = some nbVal ∧ nbVal.asStr = some nb ∧
        syncCycle room_id decode last_sync parsed = (some nb, .ok msgs)) := by
  rcases syncCycle_cases room_id decode last_sync parsed with
      ⟨-, heq⟩ | ⟨e, heq⟩ | ⟨nbVal, nb, msgs, hget, hstr, heq⟩
  · constructor
    · intro e2 he
      rw [heq] at he
      cases he
    · intro hne
      rw [heq] at hne
      exact absurd rfl hne
  · constructor
    · intro e2 he
      rw [heq]
    · intro hne
      rw [heq] at hne
      exact absurd rfl hne
  · constructor
    · intro e2 he
      rw [heq] at he
      cases he
    · intro hne
      exact ⟨nbVal, nb, msgs, hget, hstr, heq⟩

/-- A sync page whose room substructure is present but whose timeline has no
`events` key, so the cycle fails mid-parse. -/
def pageNoEvents : Json :=
  .obj [("rooms", .obj [("join", .obj [("!w:hs", .obj
          [("timeline", .obj [])])])])]

/-- C2 witness: on a cycle that fails (timeline without `events`), a cursor
`some "t0"` is intact afterwards. -/
theorem sync_cursor_advance_witness :
    (syncCycle "!w:hs" decodeRef (some "t0") pageNoEvents).1 = some "t0" :=
  (sync_cursor_advance "!w:hs" decodeRef (some "t0") pageNoEvents).1
    "Could not reach events" rfl

/-- C3: on a response in which the `rooms` key, the `join` key under it, or the
entry for the target room id is absent, the poll cycle yields an empty batch
as a successful item and leaves the stored cursor unchanged. -/
theorem sync_missing_room_empty (room_id : String) (decode : String → Except String Message)
    (last_sync : Option String) (parsed : Json) (h : roomAbsent parsed room_id) :
    syncCycle room_id decode last_sync parsed = (last_sync, .ok []) := by
  rcases h with h1 | ⟨rooms, h1, h2⟩ | ⟨rooms, joinv, h1, h2, h3⟩
  · simp only [syncCycle, h1]
  · simp only [syncCycle, h1, h2]
  · simp only [syncCycle, h1, h2, h3]

/-- C3 witness: a first cycle (`cursor = None`) against a response without a
`rooms` key yields `[]` and the cursor remains `None`. -/
theorem sync_missing_room_empty_witness :
    syncCycle "!w3:hs" decodeRef none (.obj [("next_batch", .str "s9")])
      = (none, .ok []) :=
  sync_missing_room_empty "!w3:hs" decodeRef none (.obj [("next_batch", .str "s9")])
    (Or.inl rfl)

/-- C4: if the target room's join substructure is present but the response has
no continuation token (`next_batch` absent or not a string), the poll cycle
resolves to an error — with the cursor untouched — and in particular never
yields a batch. -/
theorem sync_missing_token_fatal (room_id : String) (decode : String → Except String Message)
    (last_sync : Option String) (parsed rooms joinv jr : Json)
    (h1 : parsed.get "rooms" = some rooms) (h2 : rooms.get "join" = some joinv)
    (h3 : joinv.get room_id = some jr)
    (h4 : ∀ v, parsed.get "next_batch" = some v → v.asStr = none) :
    (∃ e, syncCycle room_id decode last_sync parsed = (last_sync, .error e)) ∧
    ∀ msgs, (syncCycle room_id decode last_sync parsed).2 ≠ .ok msgs := by
  rcases syncCycle_cases room_id decode last_sync parsed with
      ⟨habs, -⟩ | ⟨e, heq⟩ | ⟨nbVal, nb, msgs, hget, hstr, -⟩
  · exfalso
    rcases habs with ha | ⟨r, ha, hb⟩ | ⟨r, j, ha, hb, hc⟩
    · rw [h1] at ha
      cases ha
    · rw [h1] at ha
      obtain rfl := Option.some.inj ha
      rw [h2] at hb
      cases hb
    · rw [h1] at ha
      obtain rfl := Option.some.inj ha
      rw [h2] at hb
      obtain rfl := Option.some.inj hb
      rw [h3] at hc
      cases hc
  · refine ⟨⟨e, heq⟩, ?_⟩
    intro msgs hok
    rw [heq] at hok
    cases hok
  · exfalso
    rw [h4 nbVal hget] at hstr
    cases hstr

/-- A sync page whose room substructure is present (with an empty, decodable
timeline) but which lacks `next_batch` entirely, with its nodes named. -/
def ntRoom : Json := .obj [("timeline", .obj [("events", .arr [])])]

def ntJoin : Json := .obj [("!w4:hs", ntRoom)]

def ntRooms : Json := .obj [("join", ntJoin)]

def pageNoToken : Json := .obj [("rooms", ntRooms)]

/-- C4 witness: a page with the room's join substructure and no `next_batch`
makes the cycle fail (cursor untouched) and yield no batch. -/
theorem sync_missing_token_fatal_witness :
    (∃ e, syncCycle "!w4:hs" decodeRef none pageNoToken = (none, .error e)) ∧
    ∀ msgs, (syncCycle "!w4:hs" decodeRef none pageNoToken).2 ≠ .ok msgs :=
  sync_missing_token_fatal "!w4:hs" decodeRef none pageNoToken ntRooms ntJoin ntRoom
    rfl rfl rfl
    (by
      intro v hv
      simp [pageNoToken, Json.get, alookup] at hv)

end Pinreq
